import Mathlib

/-!
Shallow embedding of the shader-canvas compositing core.

Sources embedded here:
- `src/types/shader.ts` — the `ShaderLayer` discriminated union and
  `SHADER_DEFAULTS`.
- `src/lib/webgl/compositor.ts` — `hasEffect`, `ShaderCompositor.render`,
  `ShaderCompositor.renderPassthrough`.
- `src/lib/webgl/framebuffer.ts` — `PingPongBuffer`.
- `src/lib/webgl/quad.ts` (program half) — `ShaderProgramManager.getProgram`.
- `src/hooks/use-shader-renderer.ts` — `getCacheKey`, `getProcessedImage`
  and its bounded processed-result cache.
- `src/store/actions/shader-actions.ts` — `removeShaderLayerAtom`.

JavaScript numbers in the property records are modelled as rationals (`ℚ`),
which represents every literal appearing in the source exactly and keeps all
comparisons decidable.  GPU handles are modelled abstractly; WebGL calls that
can fail (framebuffer creation, program compilation) take explicit success
flags so that every failure path of the source is reachable in the model.
-/

namespace ShaderCanvas

/-- The effect-type tags of the `ShaderLayer` discriminated union
(`src/types/shader.ts`). -/
inductive ShaderType where
  | brightness
  | contrast
  | blur
  | saturation
  | hueRotate
  | invert
  | exposure
  | colorCorrection
  | blendMode
  | filmGrain
  | duotone
  | pixelate
  | threshold
  | dither
  | vignette
  | chromaticAberration
  | lut
  | halation
  | bloom
  deriving DecidableEq, Repr

/-- The string literal of each type tag, used as the program-cache key in
`ShaderCompositor.render` (`getProgram(layer.type, ...)`). -/
def ShaderType.key : ShaderType → String
  | .brightness => "brightness"
  | .contrast => "contrast"
  | .blur => "blur"
  | .saturation => "saturation"
  | .hueRotate => "hue-rotate"
  | .invert => "invert"
  | .exposure => "exposure"
  | .colorCorrection => "color-correction"
  | .blendMode => "blend-mode"
  | .filmGrain => "film-grain"
  | .duotone => "duotone"
  | .pixelate => "pixelate"
  | .threshold => "threshold"
  | .dither => "dither"
  | .vignette => "vignette"
  | .chromaticAberration => "chromatic-aberration"
  | .lut => "lut"
  | .halation => "halation"
  | .bloom => "bloom"

/-- An rgb triple, as used by the `color`, `shadowColor`, `highlightColor`
and `tint` properties. -/
structure Rgb where
  r : ℚ
  g : ℚ
  b : ℚ
  deriving DecidableEq, Repr

/-- The per-type property records of the `ShaderLayer` union
(`src/types/shader.ts`).  Each constructor carries exactly the fields of the
corresponding TypeScript interface. -/
inductive ShaderProperties where
  | brightness (value : ℚ)
  | contrast (value : ℚ)
  | blur (radius : ℚ) (quality : ℚ)
  | saturation (value : ℚ)
  | hueRotate (degrees : ℚ)
  | invert (amount : ℚ)
  | exposure (value : ℚ)
  | colorCorrection (brightness : ℚ) (contrast : ℚ) (exposure : ℚ)
      (saturation : ℚ)
  | blendMode (mode : String) (color : Rgb) (opacity : ℚ)
  | filmGrain (intensity : ℚ) (size : ℚ)
  | duotone (shadowColor : Rgb) (highlightColor : Rgb)
  | pixelate (size : ℚ)
  | threshold (value : ℚ)
  | dither (scale : ℚ)
  | vignette (size : ℚ) (roundness : ℚ) (smoothness : ℚ)
  | chromaticAberration (offset : ℚ)
  | lut (lutUrl : String) (intensity : ℚ)
  | halation (threshold : ℚ) (intensity : ℚ) (spread : ℚ) (tint : Rgb)
  | bloom (threshold : ℚ) (intensity : ℚ) (radius : ℚ) (exposure : ℚ)
  deriving DecidableEq, Repr

/-- The type tag carried by a property record (in TypeScript the `type` field
discriminates the union; here it is recovered from the constructor). -/
def ShaderProperties.shaderType : ShaderProperties → ShaderType
  | .brightness _ => .brightness
  | .contrast _ => .contrast
  | .blur _ _ => .blur
  | .saturation _ => .saturation
  | .hueRotate _ => .hueRotate
  | .invert _ => .invert
  | .exposure _ => .exposure
  | .colorCorrection _ _ _ _ => .colorCorrection
  | .blendMode _ _ _ => .blendMode
  | .filmGrain _ _ => .filmGrain
  | .duotone _ _ => .duotone
  | .pixelate _ => .pixelate
  | .threshold _ => .threshold
  | .dither _ => .dither
  | .vignette _ _ _ => .vignette
  | .chromaticAberration _ => .chromaticAberration
  | .lut _ _ => .lut
  | .halation _ _ _ _ => .halation
  | .bloom _ _ _ _ => .bloom

/-- A shader layer (`ShaderLayerBase` plus the discriminated `properties`
field, `src/types/shader.ts`). -/
structure ShaderLayer where
  id : String
  enabled : Bool
  order : Int
  properties : ShaderProperties
  deriving DecidableEq, Repr

/-- The layer's `type` field. -/
def ShaderLayer.stype (l : ShaderLayer) : ShaderType :=
  l.properties.shaderType

/-- `SHADER_DEFAULTS` (`src/types/shader.ts`): the declared default property
record of each effect type. -/
def SHADER_DEFAULTS : ShaderType → ShaderProperties
  | .brightness => .brightness 0
  | .contrast => .contrast 0
  | .blur => .blur 0 8
  | .saturation => .saturation 1
  | .hueRotate => .hueRotate 0
  | .invert => .invert 0
  | .exposure => .exposure 1
  | .colorCorrection => .colorCorrection 0 0 1 1
  | .blendMode => .blendMode "multiply" ⟨1, mkRat 1 2, 0⟩ (mkRat 1 2)
  | .filmGrain => .filmGrain (mkRat 3 10) (mkRat 3 2)
  | .duotone => .duotone ⟨mkRat 1 10, 0, mkRat 1 5⟩ ⟨1, mkRat 9 10, mkRat 1 2⟩
  | .pixelate => .pixelate 8
  | .threshold => .threshold (mkRat 1 2)
  | .dither => .dither 1
  | .vignette => .vignette (mkRat 1 4) (mkRat 1 2) (mkRat 1 2)
  | .chromaticAberration => .chromaticAberration (mkRat 1 50)
  | .lut => .lut "" 1
  | .halation => .halation (mkRat 7 10) (mkRat 3 10) 8 ⟨1, mkRat 3 10, mkRat 1 10⟩
  | .bloom => .bloom (mkRat 3 5) (mkRat 1 2) 10 1

/-- `createShaderLayer` (`src/types/shader.ts`): a new layer of the given
type with default properties, enabled, at the given order. -/
def createShaderLayer (t : ShaderType) (id : String) (order : Int) :
    ShaderLayer :=
  { id := id, enabled := true, order := order,
    properties := SHADER_DEFAULTS t }

/-- `hasEffect` (`src/lib/webgl/compositor.ts` lines 117–147): a disabled
layer has no effect; otherwise the switch on `layer.type` tests the
type-specific properties against neutral values, and every type not listed
in the switch falls through to `default: return true`. -/
def hasEffect (layer : ShaderLayer) : Bool :=
  if !layer.enabled then false
  else
    match layer.properties with
    | .brightness value => value ≠ 0
    | .contrast value => value ≠ 0
    | .exposure value => value ≠ 1
    | .saturation value => value ≠ 1
    | .invert amount => amount > 0
    | .colorCorrection b c e s => b ≠ 0 || c ≠ 0 || e ≠ 1 || s ≠ 1
    | .blur radius _ => radius > 0
    | .hueRotate degrees => degrees ≠ 0
    | .blendMode _ _ opacity => opacity > 0
    | _ => true

/-- `JSON.stringify(l.properties)` as used by `getCacheKey`
(`src/hooks/use-shader-renderer.ts` line 96): the JSON text of the property
record, fields in declaration order (JavaScript object-literal key order).
Numbers are rendered through `toString` on `ℚ`; the claims about the
fingerprint depend only on this being a function of the property values. -/
def jsonNum (q : ℚ) : String := toString q

/-- JSON text of an rgb triple `[r, g, b]`. -/
def jsonRgb (c : Rgb) : String :=
  "[" ++ jsonNum c.r ++ "," ++ jsonNum c.g ++ "," ++ jsonNum c.b ++ "]"

/-- JSON text of a property record (see `jsonNum`). -/
def jsonOfProps : ShaderProperties → String
  | .brightness v => "\x7b\"value\":" ++ jsonNum v ++ "\x7d"
  | .contrast v => "\x7b\"value\":" ++ jsonNum v ++ "\x7d"
  | .blur r q =>
      "\x7b\"radius\":" ++ jsonNum r ++ ",\"quality\":" ++ jsonNum q ++ "\x7d"
  | .saturation v => "\x7b\"value\":" ++ jsonNum v ++ "\x7d"
  | .hueRotate d => "\x7b\"degrees\":" ++ jsonNum d ++ "\x7d"
  | .invert a => "\x7b\"amount\":" ++ jsonNum a ++ "\x7d"
  | .exposure v => "\x7b\"value\":" ++ jsonNum v ++ "\x7d"
  | .colorCorrection b c e s =>
      "\x7b\"brightness\":" ++ jsonNum b ++ ",\"contrast\":" ++ jsonNum c ++
        ",\"exposure\":" ++ jsonNum e ++ ",\"saturation\":" ++ jsonNum s ++
        "\x7d"
  | .blendMode m c o =>
      "\x7b\"mode\":\"" ++ m ++ "\",\"color\":" ++ jsonRgb c ++
        ",\"opacity\":" ++ jsonNum o ++ "\x7d"
  | .filmGrain i s =>
      "\x7b\"intensity\":" ++ jsonNum i ++ ",\"size\":" ++ jsonNum s ++ "\x7d"
  | .duotone sc hc =>
      "\x7b\"shadowColor\":" ++ jsonRgb sc ++ ",\"highlightColor\":" ++
        jsonRgb hc ++ "\x7d"
  | .pixelate s => "\x7b\"size\":" ++ jsonNum s ++ "\x7d"
  | .threshold v => "\x7b\"value\":" ++ jsonNum v ++ "\x7d"
  | .dither s => "\x7b\"scale\":" ++ jsonNum s ++ "\x7d"
  | .vignette s r sm =>
      "\x7b\"size\":" ++ jsonNum s ++ ",\"roundness\":" ++ jsonNum r ++
        ",\"smoothness\":" ++ jsonNum sm ++ "\x7d"
  | .chromaticAberration o => "\x7b\"offset\":" ++ jsonNum o ++ "\x7d"
  | .lut u i =>
      "\x7b\"lutUrl\":\"" ++ u ++ "\",\"intensity\":" ++ jsonNum i ++ "\x7d"
  | .halation t i s c =>
      "\x7b\"threshold\":" ++ jsonNum t ++ ",\"intensity\":" ++ jsonNum i ++
        ",\"spread\":" ++ jsonNum s ++ ",\"tint\":" ++ jsonRgb c ++ "\x7d"
  | .bloom t i r e =>
      "\x7b\"threshold\":" ++ jsonNum t ++ ",\"intensity\":" ++ jsonNum i ++
        ",\"radius\":" ++ jsonNum r ++ ",\"exposure\":" ++ jsonNum e ++ "\x7d"

/-- `getCacheKey` (`src/hooks/use-shader-renderer.ts` lines 92–101):
`imageUrl::` followed by, for each enabled layer in list order,
`id:JSON.stringify(properties)`, joined with `|`. -/
def getCacheKey (imageUrl : String) (layers : List ShaderLayer) : String :=
  let layerHash :=
    String.intercalate "|"
      ((layers.filter (fun l => l.enabled)).map
        (fun l => l.id ++ ":" ++ jsonOfProps l.properties))
  imageUrl ++ "::" ++ layerHash

section ProcessedCache

variable {V : Type}

/-- The processed-result cache of `useShaderRenderer`
(`processedCacheRef.current : Map<string, HTMLCanvasElement>`), modelled as
an association list in JavaScript `Map` insertion order, oldest first. -/
abbrev Cache (V : Type) : Type := List (String × V)

/-- The empty cache (`new Map()`). -/
def cacheEmpty : Cache V := []

/-- `Map.prototype.get`. -/
def mapGet (m : Cache V) (k : String) : Option V :=
  (m.find? (fun p => p.1 = k)).map (fun p => p.2)

/-- `Map.prototype.set`: updates the value in place if the key is present
(keeping its position in insertion order), otherwise appends. -/
def mapSet (m : Cache V) (k : String) (v : V) : Cache V :=
  if m.any (fun p => p.1 = k) then
    m.map (fun p => if p.1 = k then (k, v) else p)
  else
    m ++ [(k, v)]

/-- `Map.prototype.delete`. -/
def mapDelete (m : Cache V) (k : String) : Cache V :=
  m.filter (fun p => ¬ p.1 = k)

/-- The cache-insertion logic of `getProcessedImage`
(`src/hooks/use-shader-renderer.ts` lines 130–135): when the current size
exceeds 50, the first key of the iteration order (`keys().next().value`) is
deleted — guarded by `if (firstKey)`, which in JavaScript is false for both
`undefined` (empty map) and the empty string — and then the new entry is
set. -/
def cachePut (m : Cache V) (k : String) (v : V) : Cache V :=
  let m1 :=
    if m.length > 50 then
      match m.head? with
      | some (firstKey, _) =>
          if firstKey = "" then m else mapDelete m firstKey
      | none => m
    else m
  mapSet m1 k v

/-- Insert a sequence of (fingerprint, result) pairs in order. -/
def cachePutAll (m : Cache V) (kvs : List (String × V)) : Cache V :=
  kvs.foldl (fun c kv => cachePut c kv.1 kv.2) m

end ProcessedCache

/-- A framebuffer record (`src/lib/webgl/framebuffer.ts`): a render target
with an attached texture at fixed dimensions.  The GPU handles are abstract;
only the dimensions are observable in the model. -/
structure Framebuffer where
  width : Nat
  height : Nat
  deriving DecidableEq, Repr

/-- `createFramebuffer` (`src/lib/webgl/framebuffer.ts` lines 17–56):
creation can fail (null framebuffer, null texture, incomplete status), which
the model injects through an explicit success flag. -/
def createFramebuffer (ok : Bool) (width height : Nat) : Option Framebuffer :=
  if ok then some ⟨width, height⟩ else none

/-- The `PingPongBuffer` state (`src/lib/webgl/framebuffer.ts` lines
93–173): two optional framebuffers, the current read index, and the
last-requested dimensions. -/
structure PingPong where
  fb0 : Option Framebuffer
  fb1 : Option Framebuffer
  currentIndex : Nat
  width : Nat
  height : Nat
  deriving DecidableEq, Repr

namespace PingPong

/-- A fresh `PingPongBuffer` (constructor): both slots null, index 0, zero
dimensions. -/
def init : PingPong :=
  { fb0 := none, fb1 := none, currentIndex := 0, width := 0, height := 0 }

/-- `framebuffers[i]` for `i` taken mod 2. -/
def slot (s : PingPong) (i : Nat) : Option Framebuffer :=
  if i % 2 = 0 then s.fb0 else s.fb1

/-- `dispose` (lines 165–172): deletes both framebuffers and nulls the
slots. -/
def dispose (s : PingPong) : PingPong :=
  { s with fb0 := none, fb1 := none }

/-- `resize` (lines 107–123): returns true at once if the recorded
dimensions already match; otherwise records the new dimensions, disposes the
old pair, attempts to create both framebuffers (success flags `ok0`, `ok1`),
and returns whether both creations succeeded. -/
def resize (s : PingPong) (ok0 ok1 : Bool) (width height : Nat) :
    PingPong × Bool :=
  if s.width = width ∧ s.height = height then
    (s, true)
  else
    let s1 := { s with width := width, height := height }
    let s2 := s1.dispose
    let f0 := createFramebuffer ok0 width height
    let f1 := createFramebuffer ok1 width height
    ({ s2 with fb0 := f0, fb1 := f1 }, f0.isSome ∧ f1.isSome)

/-- `getReadTexture` (lines 128–130): the texture of
`framebuffers[currentIndex]`, or null.  The attached texture is identified
with its framebuffer record. -/
def getReadTexture (s : PingPong) : Option Framebuffer :=
  s.slot s.currentIndex

/-- `getWriteFramebuffer` (lines 135–138): the framebuffer at
`(currentIndex + 1) % 2`, or null. -/
def getWriteFramebuffer (s : PingPong) : Option Framebuffer :=
  s.slot (s.currentIndex + 1)

/-- The write index `(currentIndex + 1) % 2`. -/
def writeIndex (s : PingPong) : Nat :=
  (s.currentIndex + 1) % 2

/-- `swap` (lines 151–153): advance the current index mod 2. -/
def swap (s : PingPong) : PingPong :=
  { s with currentIndex := (s.currentIndex + 1) % 2 }

/-- `reset` (lines 158–160): current index back to 0. -/
def reset (s : PingPong) : PingPong :=
  { s with currentIndex := 0 }

end PingPong

/-- `ShaderProgramManager` state (`src/lib/webgl/quad.ts` program section,
lines 208–244): the `programs : Map<string, WebGLProgram>` cache, with
program handles modelled as `Nat`. -/
structure ProgManager where
  programs : List (String × Nat)
  deriving DecidableEq, Repr

namespace ProgManager

/-- A fresh manager: empty program map. -/
def init : ProgManager := { programs := [] }

/-- Cache lookup (`this.programs.get(key)`). -/
def lookup (m : ProgManager) (key : String) : Option Nat :=
  (m.programs.find? (fun p => p.1 = key)).map (fun p => p.2)

/-- `getProgram` (lines 219–233): return the cached program if the key is
present; otherwise attempt `createProgram` (success injected by `compileOk`,
the new handle by `handle`) and cache the program only on success.  The
third component records whether a compile/link was attempted on this call. -/
def getProgram (m : ProgManager) (compileOk : Bool) (handle : Nat)
    (key : String) : ProgManager × Option Nat × Bool :=
  match m.lookup key with
  | some p => (m, some p, false)
  | none =>
      if compileOk then
        ({ programs := m.programs ++ [(key, handle)] }, some handle, true)
      else
        (m, none, true)

end ProgManager

/-- Output target bound for a pass (`gl.bindFramebuffer`): the default
surface (`null`, i.e. the canvas) or a ping-pong framebuffer slot. -/
inductive OutTarget where
  | screen
  | fb (slotIndex : Nat)
  deriving DecidableEq, Repr

/-- Input texture bound for a pass: the source-image texture from the
texture cache, or the texture attached to a ping-pong framebuffer slot. -/
inductive TexRef where
  | image
  | pp (slotIndex : Nat)
  deriving DecidableEq, Repr

/-- The observable actions of one iteration of the pass loop in
`ShaderCompositor.render` (lines 211–267).  A pass whose program failed to
resolve is recorded as `skipped` with no bindings (the loop body `continue`s
before binding anything, including the swap). -/
structure PassRecord where
  layerType : ShaderType
  skipped : Bool
  output : Option OutTarget
  input : Option TexRef
  flipY : Option Bool
  swapped : Bool
  deriving DecidableEq, Repr

/-- The active-layer selection of `ShaderCompositor.render` (lines 193–195):
filter by `hasEffect`, then sort ascending by `order` with the comparator
`(a, b) => a.order - b.order` (stable, as JavaScript `Array.prototype.sort`
is). -/
def activeLayers (layers : List ShaderLayer) : List ShaderLayer :=
  (layers.filter hasEffect).mergeSort (fun a b => a.order ≤ b.order)

/-- The pass loop of `ShaderCompositor.render` (lines 211–267).  `env key`
says whether `getProgram` resolves a program for that key (the program
manager's behaviour is deterministic per key within one composite: a cached
program keeps succeeding, and a failed compile fails again on retry in an
unchanged GL environment).  `i` is the loop index, `n` the total active
count, `input` the current input texture, `pp` the ping-pong state after
`reset()`.  A failed program hits `continue`: no bindings, no draw and no
swap for that pass. -/
def renderLoop (env : String → Bool) :
    List ShaderLayer → Nat → Nat → TexRef → PingPong → List PassRecord
  | [], _, _, _, _ => []
  | layer :: rest, i, n, input, pp =>
    let isLastPass := i == n - 1
    if env layer.stype.key = false then
      { layerType := layer.stype, skipped := true, output := none,
        input := none, flipY := none, swapped := false }
        :: renderLoop env rest (i + 1) n input pp
    else
      let out : OutTarget :=
        if isLastPass then .screen else .fb pp.writeIndex
      let r : PassRecord :=
        { layerType := layer.stype, skipped := false, output := some out,
          input := some input, flipY := some (i == 0),
          swapped := !isLastPass }
      if isLastPass then
        r :: renderLoop env rest (i + 1) n input pp
      else
        let pp1 := pp.swap
        r :: renderLoop env rest (i + 1) n (TexRef.pp pp1.currentIndex) pp1

/-- The observable outcome of `ShaderCompositor.render` (lines 182–268):
the early return when the source texture cannot be obtained, the
passthrough fast path (lines 197–201, drawing the source texture directly
to the default surface via `renderPassthrough`), or the GPU pass pipeline. -/
inductive RenderResult where
  | noTexture
  | passthrough (programOk : Bool)
  | passes (records : List PassRecord)
  deriving DecidableEq, Repr

/-- `ShaderCompositor.render`: obtain the source texture (`imageOk`), select
and sort active layers; with no active layer, `renderPassthrough` draws the
source directly to the default surface (its program key is "passthrough");
otherwise the ping-pong pair is resized and `reset()` and the pass loop
runs from index 0 with the source texture as input. -/
def render (env : String → Bool) (imageOk : Bool) (pp : PingPong)
    (layers : List ShaderLayer) : RenderResult :=
  if imageOk = false then .noTexture
  else
    let active := activeLayers layers
    if active.length = 0 then .passthrough (env "passthrough")
    else
      .passes (renderLoop env active 0 active.length TexRef.image pp.reset)

/-- The layer-list update of `removeShaderLayerAtom`
(`src/store/actions/shader-actions.ts` lines 53–55): drop every layer whose
id matches, then overwrite each remaining layer's `order` with its index. -/
def removeShaderLayer (layers : List ShaderLayer) (layerId : String) :
    List ShaderLayer :=
  (layers.filter (fun l => ¬ l.id = layerId)).mapIdx
    (fun index l => { l with order := (index : Int) })

/-- The eight effect types whose `hasEffect` switch case tests exactly the
neutral value that `SHADER_DEFAULTS` declares, so that a layer of such a
type at its defaults is filtered out. -/
def neutralDefaultTypes : List ShaderType :=
  [.brightness, .contrast, .blur, .saturation, .hueRotate, .invert,
   .exposure, .colorCorrection]

/-- The effect types that appear at all in the `hasEffect` switch; every
other type falls through to `default: return true`. -/
def switchTypes : List ShaderType :=
  neutralDefaultTypes ++ [.blendMode]

/-- A layer's value content apart from its `order` field, used to state
that re-sequencing only rewrites `order`. -/
def ShaderLayer.content (l : ShaderLayer) :
    String × Bool × ShaderProperties :=
  (l.id, l.enabled, l.properties)

/- Concrete sample data for counterexamples and witnesses. -/

/-- An enabled blend-mode layer whose properties are exactly
`SHADER_DEFAULTS["blend-mode"]`. -/
def blendDefaultLayer : ShaderLayer :=
  createShaderLayer .blendMode "L1" 0

/-- An enabled brightness layer at its defaults. -/
def brightnessDefaultLayer : ShaderLayer :=
  createShaderLayer .brightness "b0" 0

/-- An enabled pixelate layer at its defaults. -/
def pixelateDefaultLayer : ShaderLayer :=
  createShaderLayer .pixelate "p0" 0

/-- A brightness layer with a non-neutral value. -/
def sampleBrightness : ShaderLayer :=
  { id := "b", enabled := true, order := 0,
    properties := .brightness (mkRat 1 5) }

/-- A contrast layer with a non-neutral value. -/
def sampleContrast : ShaderLayer :=
  { id := "c", enabled := true, order := 1,
    properties := .contrast (mkRat 1 2) }

/-- An invert layer with a non-neutral value. -/
def sampleInvert : ShaderLayer :=
  { id := "i", enabled := true, order := 2,
    properties := .invert (mkRat 1 2) }

/-- A disabled brightness layer with a non-neutral value. -/
def sampleDisabled : ShaderLayer :=
  { id := "d", enabled := false, order := 3,
    properties := .brightness 1 }

/-- 51 distinct non-empty fingerprints (single characters from  codepoint
65) paired with distinct results. -/
def fingerprints51 : List (String × Nat) :=
  (List.range 51).map (fun i => (String.mk [Char.ofNat (65 + i)], i))

/-- 52 distinct non-empty fingerprints paired with distinct results. -/
def fingerprints52 : List (String × Nat) :=
  (List.range 52).map (fun i => (String.mk [Char.ofNat (65 + i)], i))

/-- A three-layer list, all enabled with non-neutral values, already in
ascending `order`. -/
def layers123 : List ShaderLayer :=
  [sampleBrightness, sampleContrast, sampleInvert]

/-- A ping-pong pair holding two live 100×100 framebuffers. -/
def pp100 : PingPong :=
  { fb0 := some ⟨100, 100⟩, fb1 := some ⟨100, 100⟩, currentIndex := 0,
    width := 100, height := 100 }

/-! ## Theorems -/

/-- C3 (counterexample): an enabled blend-mode layer whose properties are
exactly its type's declared defaults (`opacity: 0.5`) is *not* excluded
from the active-pass list: `hasEffect` returns true on it and
`activeLayers` keeps it, contradicting the claim that a layer at its
type's declared defaults is always filtered out. -/
theorem C3_counterexample :
    blendDefaultLayer.properties =
        SHADER_DEFAULTS blendDefaultLayer.stype ∧
      blendDefaultLayer.enabled = true ∧
      hasEffect blendDefaultLayer = true ∧
      activeLayers [blendDefaultLayer] = [blendDefaultLayer] := by
  refine ⟨rfl, rfl, by decide, ?_⟩
  have h : hasEffect blendDefaultLayer = true := by decide
  simp [activeLayers, h, List.mergeSort_singleton]

/-- C3 (amended): a layer whose properties equal its type's declared
defaults is excluded from the active-pass list exactly when it is disabled
or its type is one of the eight switch cases whose neutral value matches
its default (brightness 0, contrast 0, blur radius 0, saturation 1,
hue-rotate 0, invert 0, exposure 1, color-correction all-neutral);
blend-mode's default opacity 0.5 leaves it active, and every type outside
the switch (pixelate, threshold, dither, film-grain, duotone, vignette,
chromatic-aberration, lut, halation, bloom) is always active when
enabled, whatever its properties. -/
theorem C3_defaults_amended :
    (∀ l : ShaderLayer, l.properties = SHADER_DEFAULTS l.stype →
        (hasEffect l = false ↔
          l.enabled = false ∨ l.stype ∈ neutralDefaultTypes)) ∧
      (∀ l : ShaderLayer, l.enabled = true → l.stype ∉ switchTypes →
        hasEffect l = true) := by
  constructor
  · rintro ⟨id, en, ord, props⟩ hdef
    cases en <;> cases props <;>
      simp_all [hasEffect, ShaderLayer.stype, ShaderProperties.shaderType,
        SHADER_DEFAULTS, neutralDefaultTypes]
    all_goals decide
  · rintro ⟨id, en, ord, props⟩ hen hsw
    cases props <;>
      simp_all [hasEffect, ShaderLayer.stype, ShaderProperties.shaderType,
        switchTypes, neutralDefaultTypes]

/-- C3 (witness): the amended theorem applied to an enabled brightness
layer at its defaults (filtered out) and to an enabled pixelate layer
(always active). -/
theorem C3_defaults_amended_witness :
    hasEffect brightnessDefaultLayer = false ∧
      hasEffect pixelateDefaultLayer = true := by
  constructor
  · exact (C3_defaults_amended.1 brightnessDefaultLayer rfl).mpr
      (Or.inr (by decide))
  · exact C3_defaults_amended.2 pixelateDefaultLayer rfl (by decide)

/-- C6 (counterexample): starting from a live 100×100 pair, a resize to
200×200 in which the first framebuffer creation succeeds and the second
fails reports failure but leaves a *partially* mutated pair: the old
framebuffers are destroyed, one new 200×200 framebuffer is installed, and
the other slot is null — neither "both fully replaced" nor "old pair
unchanged". -/
theorem C6_counterexample :
    (pp100.resize true false 200 200).2 = false ∧
      (pp100.resize true false 200 200).1.fb0 = some ⟨200, 200⟩ ∧
      (pp100.resize true false 200 200).1.fb1 = none ∧
      (pp100.resize true false 200 200).1 ≠ pp100 := by
  refine ⟨by decide, by decide, by decide, by decide⟩

/-- C6 (amended): when any framebuffer creation fails during a resize to
genuinely new dimensions, `resize` reports failure, but it does mutate:
the old pair is always destroyed, the new dimensions are recorded, and
each slot independently holds a new framebuffer or null according to
whether its creation succeeded. -/
theorem C6_resize_failure_amended (s : PingPong) (ok0 ok1 : Bool)
    (w h : Nat) (hdim : ¬(s.width = w ∧ s.height = h))
    (hfail : ¬(ok0 = true ∧ ok1 = true)) :
    (s.resize ok0 ok1 w h).2 = false ∧
      (s.resize ok0 ok1 w h).1 =
        { fb0 := createFramebuffer ok0 w h,
          fb1 := createFramebuffer ok1 w h,
          currentIndex := s.currentIndex, width := w, height := h } := by
  unfold PingPong.resize
  rw [if_neg hdim]
  cases ok0 <;> cases ok1 <;>
    simp_all [PingPong.dispose, createFramebuffer]

/-- C6 (witness): the amended theorem evaluated at the concrete 100×100
pair resized to 200×200 with the second creation failing. -/
theorem C6_resize_failure_amended_witness :
    (pp100.resize true false 200 200).2 = false ∧
      (pp100.resize true false 200 200).1 =
        { fb0 := some ⟨200, 200⟩, fb1 := none, currentIndex := 0,
          width := 200, height := 200 } := by
  have h := C6_resize_failure_amended pp100 true false 200 200
    (by decide) (by decide)
  exact ⟨h.1, by rw [h.2]; decide⟩

/-- C7 (counterexample): after a compile failure for a type, nothing is
marked failed — the failure is not cached — and the very next `getProgram`
call for the same type attempts compilation again (third component of the
result records that a compile was attempted), contradicting "no automatic
recompile is attempted on subsequent getProgram calls for the same
type". -/
theorem C7_counterexample :
    (ProgManager.init.getProgram false 7 "brightness") =
        (ProgManager.init, none, true) ∧
      ((ProgManager.init.getProgram false 7 "brightness").1.getProgram
          false 7 "brightness").2.2 = true := by
  refine ⟨by decide, by decide⟩

/-- C7 (amended): on compile/link failure `getProgram` returns null and
caches nothing, so that render pass is skipped as a no-op — the loop
`continue`s without binding, drawing or swapping, and the input texture
propagates unchanged to the next pass, leaving other layers unaffected —
but no failure marking exists: a subsequent `getProgram` call for the same
type re-attempts compilation (while a cached success is returned without
recompiling). -/
theorem C7_program_failure_amended (m : ProgManager) (key : String)
    (handle : Nat) :
    (m.lookup key = none →
        m.getProgram false handle key = (m, none, true)) ∧
      (∀ p, m.lookup key = some p →
        ∀ ok, m.getProgram ok handle key = (m, some p, false)) ∧
      (∀ env layer rest i n input pp, env (ShaderLayer.stype layer).key = false →
        renderLoop env (layer :: rest) i n input pp =
          { layerType := layer.stype, skipped := true, output := none,
            input := none, flipY := none, swapped := false }
            :: renderLoop env rest (i + 1) n input pp) := by
  refine ⟨fun hnone => ?_, fun p hp ok => ?_, fun env layer rest i n input pp henv => ?_⟩
  · simp [ProgManager.getProgram, hnone]
  · simp [ProgManager.getProgram, hp]
  · simp [renderLoop, henv]

/-- C7 (witness): the amended theorem at the empty manager and the
"brightness" key, and at a one-pass render whose program fails. -/
theorem C7_program_failure_amended_witness :
    ProgManager.init.getProgram false 7 "brightness" =
        (ProgManager.init, none, true) ∧
      renderLoop (fun _ => false) [sampleBrightness] 0 1 TexRef.image
          PingPong.init =
        [{ layerType := .brightness, skipped := true, output := none,
           input := none, flipY := none, swapped := false }] := by
  constructor
  · exact (C7_program_failure_amended ProgManager.init "brightness" 7).1
      (by decide)
  · rw [(C7_program_failure_amended ProgManager.init "brightness" 7).2.2
      (fun _ => false) sampleBrightness [] 0 1 TexRef.image PingPong.init
      rfl]
    rfl

/-- C10 (counterexample): a resize in which only the second framebuffer
creation fails is a creation failure during resize, yet afterwards
`getReadTexture` returns the surviving texture, not null — contradicting
"the pair remains in a state where getReadTexture and getWriteFramebuffer
both return null". -/
theorem C10_counterexample :
    (PingPong.init.resize true false 100 100).2 = false ∧
      (PingPong.init.resize true false 100 100).1.getReadTexture =
        some ⟨100, 100⟩ := by
  refine ⟨by decide, by decide⟩

/-- C10 (amended): `resize` records the new dimensions before attempting
creation, so after any failed resize a later `resize` call with the same
dimensions returns true immediately without creating anything and without
changing the state; and when *both* creations failed, `getReadTexture` and
`getWriteFramebuffer` both return null. -/
theorem C10_resize_retry_amended (s : PingPong) (ok0 ok1 : Bool)
    (w h : Nat) (hdim : ¬(s.width = w ∧ s.height = h)) :
    (¬(ok0 = true ∧ ok1 = true) → ((s.resize ok0 ok1 w h).2 = false ∧
        ∀ ok0' ok1',
          (s.resize ok0 ok1 w h).1.resize ok0' ok1' w h =
            ((s.resize ok0 ok1 w h).1, true))) ∧
      (ok0 = false → ok1 = false →
        (s.resize ok0 ok1 w h).1.getReadTexture = none ∧
          (s.resize ok0 ok1 w h).1.getWriteFramebuffer = none) := by
  constructor
  · intro hfail
    unfold PingPong.resize
    rw [if_neg hdim]
    cases ok0 <;> cases ok1 <;>
      simp_all [PingPong.dispose, createFramebuffer]
  · rintro rfl rfl
    unfold PingPong.resize
    rw [if_neg hdim]
    simp [PingPong.dispose, createFramebuffer, PingPong.getReadTexture,
      PingPong.getWriteFramebuffer, PingPong.slot, ite_self]

/-- C10 (witness): the amended theorem at the fresh pair resized to
100×100 with both creations failing, then retried. -/
theorem C10_resize_retry_amended_witness :
    (PingPong.init.resize false false 100 100).2 = false ∧
      (PingPong.init.resize false false 100 100).1.resize true true 100 100 =
        ((PingPong.init.resize false false 100 100).1, true) ∧
      (PingPong.init.resize false false 100 100).1.getReadTexture = none := by
  have h := C10_resize_retry_amended PingPong.init false false 100 100
    (by decide)
  exact ⟨(h.1 (by decide)).1, (h.1 (by decide)).2 true true,
    (h.2 rfl rfl).1⟩

/-- C4 (counterexample): a layer list in which every property equals its
type's declared defaults can still have an active layer — an enabled
blend-mode layer at defaults — and compositing it invokes the GPU pass
pipeline rather than the passthrough fast path, so "every property at its
default value" does not imply the claimed passthrough behaviour. -/
theorem C4_counterexample :
    (∀ l ∈ [blendDefaultLayer],
        l.properties = SHADER_DEFAULTS l.stype ∧ l.enabled = true) ∧
      render (fun _ => true) true PingPong.init [blendDefaultLayer] =
        .passes [{ layerType := .blendMode, skipped := false,
                   output := some .screen, input := some .image,
                   flipY := some true, swapped := false }] := by
  have h : hasEffect blendDefaultLayer = true := by decide
  have hactive : activeLayers [blendDefaultLayer] = [blendDefaultLayer] := by
    simp [activeLayers, h, List.mergeSort_singleton]
  refine ⟨?_, ?_⟩
  · intro l hl
    simp only [List.mem_singleton] at hl
    subst hl
    exact ⟨rfl, rfl⟩
  · simp [render, hactive]
    decide

/-- C4 (amended): for every layer list whose active selection is empty —
for example when every layer is disabled (but not necessarily when every
property is at its default value, since e.g. a default blend-mode layer is
active) — compositing takes the passthrough fast path: the source texture
is drawn directly to the destination surface and the GPU pass pipeline is
not invoked. -/
theorem C4_passthrough_amended :
    (∀ (env : String → Bool) (pp : PingPong) (layers : List ShaderLayer),
        activeLayers layers = [] →
          render env true pp layers = .passthrough (env "passthrough")) ∧
      (∀ layers : List ShaderLayer, (∀ l ∈ layers, l.enabled = false) →
        activeLayers layers = []) := by
  constructor
  · intro env pp layers h
    simp [render, h]
  · intro layers h
    have hf : layers.filter hasEffect = [] := by
      rw [List.filter_eq_nil_iff]
      intro l hl
      simp [hasEffect, h l hl]
    simp [activeLayers, hf, List.mergeSort_nil]

/-- C4 (witness): the amended theorem applied to a list holding one
disabled layer. -/
theorem C4_passthrough_amended_witness :
    activeLayers [sampleDisabled] = [] ∧
      render (fun _ => true) true PingPong.init [sampleDisabled] =
        .passthrough true := by
  have h2 := C4_passthrough_amended.2 [sampleDisabled]
    (by intro l hl; simp only [List.mem_singleton] at hl; subst hl; rfl)
  exact ⟨h2, C4_passthrough_amended.1 (fun _ => true) PingPong.init
    [sampleDisabled] h2⟩

/-- C9 (confirmed): the fingerprint is a deterministic, value-based
serialization of the source identity plus `(layerId, properties)` for
every enabled layer in order: two layer lists whose enabled layers agree
as `(id, properties)` values produce the same key (so equal-value layers
in different underlying lists hit the cache), and dropping the disabled
layers from a list leaves its key unchanged. -/
theorem C9_fingerprint (url : String) (layers1 layers2 : List ShaderLayer)
    (h : (layers1.filter (fun l => l.enabled)).map
          (fun l => (l.id, l.properties)) =
        (layers2.filter (fun l => l.enabled)).map
          (fun l => (l.id, l.properties))) :
    getCacheKey url layers1 = getCacheKey url layers2 ∧
      getCacheKey url layers1 =
        getCacheKey url (layers1.filter (fun l => l.enabled)) := by
  have key_eq : ∀ ls1 ls2 : List ShaderLayer,
      (ls1.filter (fun l => l.enabled)).map (fun l => (l.id, l.properties)) =
        (ls2.filter (fun l => l.enabled)).map
          (fun l => (l.id, l.properties)) →
      getCacheKey url ls1 = getCacheKey url ls2 := by
    intro ls1 ls2 hv
    unfold getCacheKey
    have hm : ∀ ls : List ShaderLayer,
        (ls.filter (fun l => l.enabled)).map
            (fun l => l.id ++ ":" ++ jsonOfProps l.properties) =
          ((ls.filter (fun l => l.enabled)).map
              (fun l => (l.id, l.properties))).map
            (fun p => p.1 ++ ":" ++ jsonOfProps p.2) := by
      intro ls
      rw [List.map_map]
      rfl
    rw [hm, hm, hv]
  refine ⟨key_eq layers1 layers2 h, key_eq layers1 _ ?_⟩
  rw [List.filter_filter]
  simp

/-- C9 (witness): the main theorem applied to two concrete lists whose
enabled layers agree in value but which differ in their disabled layers. -/
theorem C9_fingerprint_witness :
    getCacheKey "img.png" [sampleBrightness, sampleDisabled, sampleContrast] =
        getCacheKey "img.png" [sampleBrightness, sampleContrast] ∧
      getCacheKey "img.png" [sampleBrightness, sampleDisabled, sampleContrast] =
        getCacheKey "img.png"
          ([sampleBrightness, sampleDisabled, sampleContrast].filter
            (fun l => l.enabled)) :=
  C9_fingerprint "img.png" [sampleBrightness, sampleDisabled, sampleContrast]
    [sampleBrightness, sampleContrast] (by decide)

/-- C8 (confirmed): removing one layer (the unique layer with the given
id) from an `n`-layer list re-sequences the remaining layers' `order`
fields to exactly `0..n-2` while preserving the remaining layers' relative
order and all their other fields. -/
theorem C8_remove_resequences (layers : List ShaderLayer) (layerId : String)
    (h : (layers.filter (fun l => l.id = layerId)).length = 1) :
    ((removeShaderLayer layers layerId).map ShaderLayer.order =
        (List.range (layers.length - 1)).map Int.ofNat) ∧
      ((removeShaderLayer layers layerId).map ShaderLayer.content =
        (layers.filter (fun l => ¬ l.id = layerId)).map
          ShaderLayer.content) := by
  have hlen : (layers.filter (fun l => !decide (l.id = layerId))).length =
      layers.length - 1 := by
    have hsplit : layers.length =
        (layers.filter (fun l => l.id = layerId)).length +
          (layers.filter (fun l => !decide (l.id = layerId))).length :=
      List.length_eq_length_filter_add
        (fun l : ShaderLayer => decide (l.id = layerId))
    omega
  constructor
  · apply List.ext_getElem
    · simp [removeShaderLayer, List.length_mapIdx, hlen]
    · intro i h1 h2
      simp [removeShaderLayer, List.getElem_mapIdx]
  · apply List.ext_getElem
    · simp [removeShaderLayer, List.length_mapIdx]
    · intro i h1 h2
      simp [removeShaderLayer, List.getElem_mapIdx, ShaderLayer.content]

/-- C8 (witness): removing the middle layer of a 3-layer list leaves
orders `[0, 1]` and the other two layers' contents in their original
relative order. -/
theorem C8_remove_resequences_witness :
    ((removeShaderLayer [sampleBrightness, sampleContrast, sampleInvert]
          "c").map ShaderLayer.order =
        (List.range 2).map Int.ofNat) ∧
      ((removeShaderLayer [sampleBrightness, sampleContrast, sampleInvert]
          "c").map ShaderLayer.content =
        ([sampleBrightness, sampleContrast, sampleInvert].filter
            (fun l => ¬ l.id = "c")).map ShaderLayer.content) :=
  C8_remove_resequences [sampleBrightness, sampleContrast, sampleInvert]
    "c" (by decide)

/-- The pass loop emits exactly one record per active layer, skipped or
not. -/
theorem renderLoop_length (env : String → Bool) (rest : List ShaderLayer) :
    ∀ (i n : Nat) (input : TexRef) (pp : PingPong),
      (renderLoop env rest i n input pp).length = rest.length := by
  induction rest with
  | nil => intro i n input pp; rfl
  | cons l t ih =>
    intro i n input pp
    simp only [renderLoop]
    split
    · simp [ih]
    · split <;> simp [ih]

/-- In the pass loop started at index `i`, the `j`-th emitted record either
carries no flip value (skipped pass) or carries exactly the test
`i + j == 0`. -/
theorem renderLoop_flipY (env : String → Bool) (rest : List ShaderLayer) :
    ∀ (i n : Nat) (input : TexRef) (pp : PingPong) (j : Nat)
      (r : PassRecord),
      (renderLoop env rest i n input pp)[j]? = some r →
      r.flipY = none ∨ r.flipY = some (i + j == 0) := by
  induction rest with
  | nil => intro i n input pp j r hr; simp [renderLoop] at hr
  | cons l t ih =>
    intro i n input pp j r hr
    simp only [renderLoop] at hr
    by_cases henv : env l.stype.key = false
    · rw [if_pos henv] at hr
      match j with
      | 0 =>
        rw [List.getElem?_cons_zero] at hr
        left
        cases hr
        rfl
      | j + 1 =>
        rw [List.getElem?_cons_succ] at hr
        have harg : i + 1 + j = i + (j + 1) := by omega
        have := ih (i + 1) n input pp j r hr
        rw [harg] at this
        exact this
    · rw [if_neg henv] at hr
      by_cases hlast : (i == n - 1) = true
      · rw [if_pos hlast] at hr
        match j with
        | 0 =>
          rw [List.getElem?_cons_zero] at hr
          right
          cases hr
          simp
        | j + 1 =>
          rw [List.getElem?_cons_succ] at hr
          have harg : i + 1 + j = i + (j + 1) := by omega
          have := ih (i + 1) n input pp j r hr
          rw [harg] at this
          exact this
      · rw [if_neg hlast] at hr
        match j with
        | 0 =>
          rw [List.getElem?_cons_zero] at hr
          right
          cases hr
          simp
        | j + 1 =>
          rw [List.getElem?_cons_succ] at hr
          have harg : i + 1 + j = i + (j + 1) := by omega
          have := ih (i + 1) n (TexRef.pp pp.swap.currentIndex) pp.swap j r hr
          rw [harg] at this
          exact this

/-- C2 (confirmed): whenever a composite runs the pass pipeline and pass
`j` passes a vertical-flip value to its shader, that value is true exactly
for pass index 0: the first pass corrects the source raster's row order
and no later pass flips again. -/
theorem C2_flipY_first_pass_only (env : String → Bool) (imageOk : Bool)
    (pp : PingPong) (layers : List ShaderLayer)
    (records : List PassRecord)
    (hr : render env imageOk pp layers = .passes records)
    (j : Nat) (hj : j < records.length) (b : Bool)
    (hb : (records.get ⟨j, hj⟩).flipY = some b) :
    b = true ↔ j = 0 := by
  unfold render at hr
  by_cases hok : imageOk = false
  · rw [if_pos hok] at hr
    cases hr
  · rw [if_neg hok] at hr
    simp only at hr
    by_cases hlen : (activeLayers layers).length = 0
    · rw [if_pos hlen] at hr
      cases hr
    · rw [if_neg hlen] at hr
      have hrec : records = renderLoop env (activeLayers layers) 0
          (activeLayers layers).length TexRef.image pp.reset := by
        cases hr
        rfl
      subst hrec
      set records := renderLoop env (activeLayers layers) 0
        (activeLayers layers).length TexRef.image pp.reset with hrec
      have hopt : records[j]? = some (records.get ⟨j, hj⟩) := by
        rw [List.getElem?_eq_getElem hj]
        rfl
      rcases renderLoop_flipY env (activeLayers layers) 0
          (activeLayers layers).length TexRef.image pp.reset j
          (records.get ⟨j, hj⟩) hopt with
        hnone | hsome
      · rw [hnone] at hb
        cases hb
      · rw [hsome] at hb
        have hbeq : b = (0 + j == 0) := by
          injection hb with hb2
          exact hb2.symm
        subst hbeq
        simp

/-- C2 (witness): the theorem applied to a concrete three-pass composite,
at pass index 1, whose flip value is false. -/
theorem C2_flipY_first_pass_only_witness :
    render (fun _ => true) true PingPong.init layers123 =
        .passes (renderLoop (fun _ => true) layers123 0 3 TexRef.image
          PingPong.init.reset) ∧
      ((renderLoop (fun _ => true) layers123 0 3 TexRef.image
          PingPong.init.reset).get ⟨1, by decide⟩).flipY = some false ∧
      (false = true ↔ (1 : Nat) = 0) := by
  have hf : layers123.filter hasEffect = layers123 := by decide
  have hactive : activeLayers layers123 = layers123 := by
    rw [activeLayers, hf]
    exact List.mergeSort_of_sorted (by decide)
  have hr : render (fun _ => true) true PingPong.init layers123 =
      .passes (renderLoop (fun _ => true) layers123 0 3 TexRef.image
        PingPong.init.reset) := by
    unfold render
    rw [if_neg (by simp)]
    simp only [hactive]
    rfl
  refine ⟨hr, by decide, ?_⟩
  exact C2_flipY_first_pass_only (fun _ => true) true PingPong.init
    layers123 _ hr 1 (by decide) false (by decide)

/-- Full characterization of the pass loop when every program resolves:
no pass is skipped; pass `j` (started at loop index `i`, ping-pong index
`pp.currentIndex`) writes to the screen exactly when it is the last pass
and otherwise to the ping-pong slot `(pp.currentIndex + 1 + j) % 2`; it
swaps after itself exactly when it is not last; and it reads the incoming
input for `j = 0` and the slot `(pp.currentIndex + j) % 2` afterwards. -/
theorem renderLoop_ok_spec (env : String → Bool) (rest : List ShaderLayer) :
    ∀ (i n : Nat) (input : TexRef) (pp : PingPong),
      (∀ l ∈ rest, env l.stype.key = true) →
      i + rest.length = n →
      ∀ (j : Nat) (r : PassRecord),
        (renderLoop env rest i n input pp)[j]? = some r →
        r.skipped = false ∧
          r.output = some (if i + j = n - 1 then OutTarget.screen
              else OutTarget.fb ((pp.currentIndex + 1 + j) % 2)) ∧
          r.swapped = !(i + j == n - 1) ∧
          r.input = some (if j = 0 then input
              else TexRef.pp ((pp.currentIndex + j) % 2)) := by
  induction rest with
  | nil => intro i n input pp hEnv hinv j r hr; simp [renderLoop] at hr
  | cons l t ih =>
    intro i n input pp hEnv hinv j r hr
    have henv : env l.stype.key = true := hEnv l (by simp)
    simp only [List.length_cons] at hinv
    simp only [renderLoop] at hr
    rw [if_neg (by simp [henv])] at hr
    by_cases hlast : (i == n - 1) = true
    · have hieq : i = n - 1 := by simpa using hlast
      have ht : t = [] := by
        have hlen : t.length = 0 := by omega
        exact List.eq_nil_of_length_eq_zero hlen
      subst ht
      rw [if_pos hlast] at hr
      match j with
      | 0 =>
        rw [List.getElem?_cons_zero] at hr
        cases hr
        refine ⟨rfl, ?_, ?_, ?_⟩
        · simp [hlast, hieq]
        · simp [hlast, hieq]
        · simp
      | j + 1 =>
        rw [List.getElem?_cons_succ] at hr
        simp [renderLoop] at hr
    · have hine : ¬ i = n - 1 := by simpa using hlast
      rw [if_neg hlast] at hr
      match j with
      | 0 =>
        rw [List.getElem?_cons_zero] at hr
        cases hr
        refine ⟨rfl, ?_, ?_, ?_⟩
        · simp [hlast, hine, PingPong.writeIndex]
        · simp [hlast]
        · simp
      | j + 1 =>
        rw [List.getElem?_cons_succ] at hr
        have ihres := ih (i + 1) n (TexRef.pp pp.swap.currentIndex) pp.swap
          (fun x hx => hEnv x (by simp [hx])) (by omega) j r hr
        obtain ⟨h1, h2, h3, h4⟩ := ihres
        have e1 : i + 1 + j = i + (j + 1) := by omega
        refine ⟨h1, ?_, ?_, ?_⟩
        · rw [h2, e1]
          by_cases hc : i + (j + 1) = n - 1
          · simp [hc]
          · simp only [hc, if_false, PingPong.swap]
            have e2 : ((pp.currentIndex + 1) % 2 + 1 + j) % 2 =
                (pp.currentIndex + 1 + (j + 1)) % 2 := by omega
            rw [e2]
        · rw [h3, e1]
        · rw [h4]
          by_cases hj0 : j = 0
          · subst hj0
            simp [PingPong.swap]
          · simp only [hj0, if_false, PingPong.swap,
              Nat.succ_ne_zero]
            have e3 : ((pp.currentIndex + 1) % 2 + j) % 2 =
                (pp.currentIndex + (j + 1)) % 2 := by omega
            rw [e3]

/-- C5 (confirmed): in a composite over `n ≥ 1` active layers whose
programs all resolve, pass `j` binds the ping-pong write framebuffer when
`j < n - 1` and the final destination surface when `j = n - 1`; the pair
is swapped after exactly the non-last passes; pass 0 reads the source
texture and every pass `j > 0` reads the slot the previous pass wrote
(its output framebuffer's texture), so each pass reads the previous
pass's output. -/
theorem C5_pingpong_chaining (env : String → Bool) (pp : PingPong)
    (layers : List ShaderLayer) (records : List PassRecord)
    (hEnv : ∀ l ∈ activeLayers layers, env l.stype.key = true)
    (hr : render env true pp layers = .passes records)
    (j : Nat) (r : PassRecord) (hjr : records[j]? = some r) :
    r.output = some (if j = records.length - 1 then OutTarget.screen
        else OutTarget.fb ((j + 1) % 2)) ∧
      r.swapped = !(j == records.length - 1) ∧
      r.input = some (if j = 0 then TexRef.image else TexRef.pp (j % 2)) ∧
      (∀ (k : Nat) (rp : PassRecord), k + 1 = j → records[k]? = some rp →
        rp.output = some (OutTarget.fb (j % 2))) := by
  unfold render at hr
  rw [if_neg (by simp)] at hr
  simp only at hr
  by_cases hlen : (activeLayers layers).length = 0
  · rw [if_pos hlen] at hr
    cases hr
  · rw [if_neg hlen] at hr
    have hrec : records = renderLoop env (activeLayers layers) 0
        (activeLayers layers).length TexRef.image pp.reset := by
      cases hr
      rfl
    have hn : records.length = (activeLayers layers).length := by
      rw [hrec]
      exact renderLoop_length env (activeLayers layers) 0
        (activeLayers layers).length TexRef.image pp.reset
    have hjlt : j < records.length := by
      by_contra hcon
      rw [List.getElem?_eq_none (by omega)] at hjr
      cases hjr
    have hspec := renderLoop_ok_spec env (activeLayers layers) 0
      (activeLayers layers).length TexRef.image pp.reset hEnv (by omega)
      j r (by rw [← hrec]; exact hjr)
    obtain ⟨h1, h2, h3, h4⟩ := hspec
    have hc0 : (PingPong.reset pp).currentIndex = 0 := rfl
    refine ⟨?_, ?_, ?_, ?_⟩
    · rw [h2, hc0]
      rw [hn]
      norm_num [Nat.add_comm]
    · rw [h3, hn]
      norm_num
    · rw [h4, hc0]
      norm_num
    · intro k rp hk hkr
      have hkspec := renderLoop_ok_spec env (activeLayers layers) 0
        (activeLayers layers).length TexRef.image pp.reset hEnv (by omega)
        k rp (by rw [← hrec]; exact hkr)
      rw [hkspec.2.1, hc0]
      have hknl : ¬ 0 + k = (activeLayers layers).length - 1 := by omega
      rw [if_neg hknl]
      have e4 : (0 + 1 + k) % 2 = j % 2 := by omega
      rw [e4]

/-- C5 (witness): the theorem applied to a concrete three-pass composite
at pass index 1, which writes slot 0, swaps, and reads slot 1 (the slot
pass 0 wrote). -/
theorem C5_pingpong_chaining_witness :
    (renderLoop (fun _ => true) layers123 0 3 TexRef.image
        PingPong.init.reset)[1]? =
      some { layerType := .contrast, skipped := false,
             output := some (.fb 0), input := some (.pp 1),
             flipY := some false, swapped := true } ∧
      (some (OutTarget.fb 0) : Option OutTarget) =
        some (if 1 = (renderLoop (fun _ => true) layers123 0 3 TexRef.image
              PingPong.init.reset).length - 1 then OutTarget.screen
            else OutTarget.fb ((1 + 1) % 2)) ∧
      (some (TexRef.pp 1) : Option TexRef) =
        some (if 1 = 0 then TexRef.image else TexRef.pp (1 % 2)) := by
  have hf : layers123.filter hasEffect = layers123 := by decide
  have hactive : activeLayers layers123 = layers123 := by
    rw [activeLayers, hf]
    exact List.mergeSort_of_sorted (by decide)
  have hr : render (fun _ => true) true PingPong.init layers123 =
      .passes (renderLoop (fun _ => true) layers123 0 3 TexRef.image
        PingPong.init.reset) := by
    unfold render
    rw [if_neg (by simp)]
    simp only [hactive]
    rfl
  have happ := C5_pingpong_chaining (fun _ => true) PingPong.init layers123
    _ (fun l _ => rfl) hr 1
    { layerType := .contrast, skipped := false, output := some (.fb 0),
      input := some (.pp 1), flipY := some false, swapped := true }
    (by decide)
  exact ⟨by decide, happ.1, happ.2.2.1⟩

/-- Setting a key absent from the map appends the new entry at the end of
the insertion order. -/
theorem mapSet_fresh {V : Type} (m : Cache V) (k : String) (v : V)
    (h : ∀ p ∈ m, p.1 ≠ k) : mapSet m k v = m ++ [(k, v)] := by
  have hc : ¬ (m.any (fun p => p.1 = k) = true) := by
    simp only [List.any_eq_true, decide_eq_true_eq, not_exists]
    intro p
    rw [not_and]
    exact h p
  unfold mapSet
  rw [if_neg hc]

/-- Deleting the head key of a map whose keys are distinct removes exactly
the head entry. -/
theorem mapDelete_cons_head {V : Type} (k : String) (v : V) (t : Cache V)
    (h : ∀ p ∈ t, p.1 ≠ k) : mapDelete ((k, v) :: t) k = t := by
  unfold mapDelete
  rw [List.filter_cons]
  rw [if_neg (by simp)]
  rw [List.filter_eq_self]
  intro p hp
  simpa using h p hp

/-- One `cachePut` step on a cache respecting the size bound, with distinct
non-empty keys and a fresh non-empty key: the oldest entry is dropped
exactly when the cache already holds 51 entries, and the new entry is
appended. -/
theorem cachePut_spec {V : Type} (m : Cache V) (k : String) (v : V)
    (hlen : m.length ≤ 51)
    (hnodup : (m.map Prod.fst).Nodup)
    (hne : ∀ p ∈ m, p.1 ≠ "")
    (hk : ∀ p ∈ m, p.1 ≠ k) :
    cachePut m k v = (if m.length = 51 then m.tail else m) ++ [(k, v)] := by
  simp only [cachePut]
  by_cases h51 : m.length > 50
  · have h51e : m.length = 51 := by omega
    rw [if_pos h51]
    cases m with
    | nil => simp at h51e
    | cons p t =>
      simp only [List.head?_cons]
      rw [if_neg (hne p (List.mem_cons_self p t))]
      have hpt : ∀ q ∈ t, q.1 ≠ p.1 := by
        intro q hq he
        have : p.1 ∈ t.map Prod.fst := by
          rw [← he]
          exact List.mem_map_of_mem Prod.fst hq
        simp only [List.map_cons, List.nodup_cons] at hnodup
        exact hnodup.1 this
      have hdel : mapDelete ((p.1, p.2) :: t) p.1 = t :=
        mapDelete_cons_head p.1 p.2 t hpt
      rw [show ((p.1, p.2) : String × V) = p from rfl] at hdel
      rw [hdel]
      rw [if_pos h51e]
      rw [List.tail_cons]
      exact mapSet_fresh t k v (fun q hq => hk q (List.mem_cons_of_mem p hq))
  · rw [if_neg h51]
    rw [if_neg (by omega)]
    exact mapSet_fresh m k v hk

/-- Inserting a sequence of fresh, pairwise-distinct, non-empty fingerprints
into a well-formed cache keeps exactly the last 51 entries of the combined
insertion order: the result is `(m ++ kvs).drop ((m ++ kvs).length - 51)`. -/
theorem cachePutAll_spec {V : Type} :
    ∀ (kvs : List (String × V)) (m : Cache V),
      m.length ≤ 51 →
      (m.map Prod.fst).Nodup →
      (∀ p ∈ m, p.1 ≠ "") →
      (∀ kv ∈ kvs, ∀ p ∈ m, p.1 ≠ kv.1) →
      (kvs.map Prod.fst).Nodup →
      (∀ kv ∈ kvs, kv.1 ≠ "") →
      cachePutAll m kvs = (m ++ kvs).drop ((m ++ kvs).length - 51) := by
  intro kvs
  induction kvs with
  | nil =>
    intro m hlen hnodup hne hfresh hkn hke
    simp only [cachePutAll, List.foldl_nil, List.append_nil]
    rw [show m.length - 51 = 0 from by omega]
    rw [List.drop_zero]
  | cons kv rest ih =>
    intro m hlen hnodup hne hfresh hkn hke
    have hput : cachePut m kv.1 kv.2 =
        (if m.length = 51 then m.tail else m) ++ [(kv.1, kv.2)] :=
      cachePut_spec m kv.1 kv.2 hlen hnodup hne
        (fun p hp => (hfresh kv (List.mem_cons_self kv rest) p hp).symm ∘
          Eq.symm)
    have hstep : cachePutAll m (kv :: rest) =
        cachePutAll (cachePut m kv.1 kv.2) rest := rfl
    by_cases h51 : m.length = 51
    · cases m with
      | nil => simp at h51
      | cons p t =>
        rw [if_pos h51, List.tail_cons] at hput
        have htlen : t.length = 50 := by
          simp only [List.length_cons] at h51
          omega
        have hm' : (t ++ [(kv.1, kv.2)]).length ≤ 51 := by
          simp [htlen]
        have htn : (t.map Prod.fst).Nodup := by
          simp only [List.map_cons, List.nodup_cons] at hnodup
          exact hnodup.2
        have hnodup' : ((t ++ [(kv.1, kv.2)]).map Prod.fst).Nodup := by
          rw [List.map_append]
          rw [List.nodup_append]
          refine ⟨htn, by simp, ?_⟩
          intro a ha hb
          simp only [List.map_singleton, List.mem_singleton] at hb
          subst hb
          obtain ⟨q, hq, hqe⟩ := List.mem_map.mp ha
          exact hfresh kv (List.mem_cons_self kv rest) q
            (List.mem_cons_of_mem p hq) (by rw [hqe])
        have hne' : ∀ q ∈ t ++ [(kv.1, kv.2)], q.1 ≠ "" := by
          intro q hq
          rcases List.mem_append.mp hq with hq1 | hq2
          · exact hne q (List.mem_cons_of_mem p hq1)
          · simp only [List.mem_singleton] at hq2
            subst hq2
            exact hke kv (List.mem_cons_self kv rest)
        have hfresh' : ∀ kv2 ∈ rest, ∀ q ∈ t ++ [(kv.1, kv.2)],
            q.1 ≠ kv2.1 := by
          intro kv2 hkv2 q hq
          rcases List.mem_append.mp hq with hq1 | hq2
          · exact hfresh kv2 (List.mem_cons_of_mem kv hkv2) q
              (List.mem_cons_of_mem p hq1)
          · simp only [List.mem_singleton] at hq2
            subst hq2
            simp only [List.map_cons, List.nodup_cons] at hkn
            intro he
            exact hkn.1 (by rw [he]; exact List.mem_map_of_mem Prod.fst hkv2)
        have hkn' : (rest.map Prod.fst).Nodup := by
          simp only [List.map_cons, List.nodup_cons] at hkn
          exact hkn.2
        have hke' : ∀ kv2 ∈ rest, kv2.1 ≠ "" :=
          fun kv2 h2 => hke kv2 (List.mem_cons_of_mem kv h2)
        have hrec := ih (t ++ [(kv.1, kv.2)]) hm' hnodup' hne' hfresh'
          hkn' hke'
        rw [hstep, hput, hrec]
        have hx : (t ++ [(kv.1, kv.2)]) ++ rest = t ++ (kv.1, kv.2) :: rest := by
          rw [List.append_assoc]
          rfl
        rw [hx]
        have hlhs : (p :: t) ++ kv :: rest = p :: (t ++ (kv.1, kv.2) :: rest) := by
          simp
        rw [hlhs]
        have hlens : (p :: (t ++ (kv.1, kv.2) :: rest)).length - 51 =
            ((t ++ (kv.1, kv.2) :: rest).length - 51) + 1 := by
          simp only [List.length_cons, List.length_append]
          omega
        rw [hlens]
        rw [List.drop_succ_cons]
    · rw [if_neg h51] at hput
      have hm' : (m ++ [(kv.1, kv.2)]).length ≤ 51 := by
        simp only [List.length_append, List.length_singleton]
        omega
      have hnodup' : ((m ++ [(kv.1, kv.2)]).map Prod.fst).Nodup := by
        rw [List.map_append]
        rw [List.nodup_append]
        refine ⟨hnodup, by simp, ?_⟩
        intro a ha hb
        simp only [List.map_singleton, List.mem_singleton] at hb
        subst hb
        obtain ⟨q, hq, hqe⟩ := List.mem_map.mp ha
        exact hfresh kv (List.mem_cons_self kv rest) q hq (by rw [hqe])
      have hne' : ∀ q ∈ m ++ [(kv.1, kv.2)], q.1 ≠ "" := by
        intro q hq
        rcases List.mem_append.mp hq with hq1 | hq2
        · exact hne q hq1
        · simp only [List.mem_singleton] at hq2
          subst hq2
          exact hke kv (List.mem_cons_self kv rest)
      have hfresh' : ∀ kv2 ∈ rest, ∀ q ∈ m ++ [(kv.1, kv.2)],
          q.1 ≠ kv2.1 := by
        intro kv2 hkv2 q hq
        rcases List.mem_append.mp hq with hq1 | hq2
        · exact hfresh kv2 (List.mem_cons_of_mem kv hkv2) q hq1
        · simp only [List.mem_singleton] at hq2
          subst hq2
          simp only [List.map_cons, List.nodup_cons] at hkn
          intro he
          exact hkn.1 (by rw [he]; exact List.mem_map_of_mem Prod.fst hkv2)
      have hkn' : (rest.map Prod.fst).Nodup := by
        simp only [List.map_cons, List.nodup_cons] at hkn
        exact hkn.2
      have hke' : ∀ kv2 ∈ rest, kv2.1 ≠ "" :=
        fun kv2 h2 => hke kv2 (List.mem_cons_of_mem kv h2)
      have hrec := ih (m ++ [(kv.1, kv.2)]) hm' hnodup' hne' hfresh'
        hkn' hke'
      rw [hstep, hput, hrec]
      have hx : (m ++ [(kv.1, kv.2)]) ++ rest = m ++ kv :: rest := by
        rw [List.append_assoc]
        rfl
      rw [hx]

/-- Looking up the key of an entry present in a map with distinct keys
returns that entry's value. -/
theorem mapGet_mem {V : Type} :
    ∀ (m : Cache V), (m.map Prod.fst).Nodup →
      ∀ kv ∈ m, mapGet m kv.1 = some kv.2 := by
  intro m
  induction m with
  | nil => intro _ kv hkv; simp at hkv
  | cons p t ih =>
    intro hnodup kv hkv
    simp only [List.map_cons, List.nodup_cons] at hnodup
    rcases List.mem_cons.mp hkv with he | ht
    · subst he
      simp [mapGet, List.find?_cons]
    · have hne : ¬ p.1 = kv.1 := by
        intro he
        exact hnodup.1 (by rw [he]; exact List.mem_map_of_mem Prod.fst ht)
      have hdec : (decide (p.1 = kv.1)) = false := by
        simpa using hne
      have := ih hnodup.2 kv ht
      simp only [mapGet, List.find?_cons, hdec] at this ⊢
      exact this

/-- Looking up a key absent from a map misses. -/
theorem mapGet_not_mem {V : Type} (m : Cache V) (k : String)
    (h : k ∉ m.map Prod.fst) : mapGet m k = none := by
  unfold mapGet
  rw [List.find?_eq_none.mpr]
  · rfl
  · intro p hp
    simp only [decide_eq_true_eq]
    intro he
    exact h (by rw [← he]; exact List.mem_map_of_mem Prod.fst hp)

/-- C1 (counterexample): inserting 51 pairwise-distinct, non-empty
fingerprints into the empty processed-result cache does *not* evict the
first-inserted entry: the cache then holds all 51 entries and the first
fingerprint is still retrievable, contradicting the claimed bound of 50
with eviction on the 51st insertion. -/
theorem C1_counterexample :
    (fingerprints51.map Prod.fst).Nodup ∧
      (∀ kv ∈ fingerprints51, kv.1 ≠ "") ∧
      (cachePutAll cacheEmpty fingerprints51).length = 51 ∧
      mapGet (cachePutAll cacheEmpty fingerprints51) "A" = some 0 := by
  refine ⟨by decide, by decide, ?_, ?_⟩
  · set_option maxRecDepth 4000 in decide
  · set_option maxRecDepth 4000 in decide

/-- C1 (amended): the processed-result cache is bounded at 51 entries with
FIFO eviction by insertion order: inserting distinct non-empty
fingerprints keeps exactly the last 51 inserted entries — eviction of the
single oldest entry begins only on the insertion that finds the cache
already holding 51 entries (the 52nd distinct fingerprint), and every kept
entry stays retrievable by get while every evicted entry misses. -/
theorem C1_cache_bound_amended {V : Type} (kvs : List (String × V))
    (hnodup : (kvs.map Prod.fst).Nodup)
    (hne : ∀ kv ∈ kvs, kv.1 ≠ "") :
    cachePutAll cacheEmpty kvs = kvs.drop (kvs.length - 51) ∧
      (∀ kv ∈ kvs.drop (kvs.length - 51),
        mapGet (cachePutAll cacheEmpty kvs) kv.1 = some kv.2) ∧
      (∀ kv ∈ kvs.take (kvs.length - 51),
        mapGet (cachePutAll cacheEmpty kvs) kv.1 = none) := by
  have hmain : cachePutAll cacheEmpty kvs = kvs.drop (kvs.length - 51) := by
    have := cachePutAll_spec kvs cacheEmpty (by simp [cacheEmpty])
      (by simp [cacheEmpty]) (by simp [cacheEmpty]) (by simp [cacheEmpty])
      hnodup hne
    simpa [cacheEmpty] using this
  have hdropn : ((kvs.drop (kvs.length - 51)).map Prod.fst).Nodup := by
    rw [List.map_drop]
    exact List.Nodup.sublist (List.drop_sublist _ _) hnodup
  refine ⟨hmain, ?_, ?_⟩
  · intro kv hkv
    rw [hmain]
    exact mapGet_mem (kvs.drop (kvs.length - 51)) hdropn kv hkv
  · intro kv hkv
    rw [hmain]
    apply mapGet_not_mem
    intro hmem
    have hsplit : kvs.map Prod.fst =
        (kvs.take (kvs.length - 51)).map Prod.fst ++
          (kvs.drop (kvs.length - 51)).map Prod.fst := by
      rw [← List.map_append, List.take_append_drop]
    rw [hsplit, List.nodup_append] at hnodup
    exact hnodup.2.2 (List.mem_map_of_mem Prod.fst hkv) hmem

/-- C1 (witness): the amended theorem applied to 52 concrete distinct
fingerprints: the resulting cache is exactly the last 51 insertions. -/
theorem C1_cache_bound_amended_witness :
    cachePutAll cacheEmpty fingerprints52 =
      fingerprints52.drop (fingerprints52.length - 51) :=
  (C1_cache_bound_amended fingerprints52 (by decide) (by decide)).1

end ShaderCanvas
